import Mathlib

/-!
# Verification of the report-ems Decision Explanation Engine

Shallow embedding of `src/backend/model_service.py` (class `ModelService`)
and the artifact layout produced by `src/backend/create_models.py`.

Numeric feature values and thresholds are embedded as rationals (`ℚ`): the
claims under study concern comparison and routing logic, not floating-point
rounding.  A raw feature map is an association list from feature names to
values, mirroring the Python `Dict[str, float]` inputs.

The fitted classifier is opaque to `ModelService` except for the
capabilities it actually invokes: `predict`, `predict_proba`,
`feature_importances_` (optional attribute), `estimators_` (optional
attribute, present on forests, absent on `DecisionTreeClassifier`), and the
per-tree structure arrays `feature`, `threshold`, `children_left`,
`children_right` read by `_get_decision_path`.
-/

namespace ReportEms

/-- A raw feature map, `Dict[str, float]` in the source. -/
abbrev FeatureMap := List (String × ℚ)

/-- `data[k]` as an option: the first binding of `k`, if any. -/
def lookupF (data : FeatureMap) (k : String) : Option ℚ :=
  (data.find? (fun p => p.1 == k)).map Prod.snd

/-- `k in data` for a Python dict. -/
def hasKey (data : FeatureMap) (k : String) : Bool :=
  (lookupF data k).isSome

/-- The structure arrays of a fitted sklearn tree (`tree_`): `feature[i]`
is the split feature index of node `i`, with `-2` the sentinel marking a
leaf; `threshold[i]` its split threshold; `children_left[i]` /
`children_right[i]` the child node ids. -/
structure SkTree where
  feature : List Int
  threshold : List ℚ
  childrenLeft : List Nat
  childrenRight : List Nat
deriving DecidableEq, Repr

/-- The loaded classifier as `ModelService` sees it.  `estimators` models
the optional `estimators_` attribute (`hasattr(model, 'estimators_')`):
present on ensembles, absent (`none`) on a single
`DecisionTreeClassifier`, whose own tree sits in `tree` (the `tree_`
attribute, which `_get_decision_path` never reads).  `predictFn` and
`predictProbaFn` model `model.predict(X)[0]` and
`model.predict_proba(X)[0]` on the single ordered row `X`;
`featureImportancesOpt` models the optional `feature_importances_`
attribute, and `className` the runtime class name `type(model).__name__`. -/
structure Model where
  estimators : Option (List SkTree)
  tree : Option SkTree
  predictFn : List ℚ → Bool
  predictProbaFn : List ℚ → List ℚ
  featureImportancesOpt : Option (List ℚ)
  className : String

/-- One entry of the pickled artifact dict written by `create_models.py`:
`{'model': ..., 'feature_names': ..., 'model_type': ...}`. -/
structure ModelData where
  model : Model
  featureNames : List String
  modelType : String

/-- The dataclass `PredictionResult` of `model_service.py`. -/
structure PredictionResult where
  decision : Bool
  confidence : ℚ
  probabilities : List ℚ
  featureValues : FeatureMap
  featureImportances : List (String × ℚ)
  modelType : String
deriving DecidableEq, Repr

/-- The error outcomes `ModelService` raises on the prediction paths:
`RuntimeError` for an unloaded model, `ValueError` for missing features
(carrying the enumerated missing names) and for an unknown model type
(carrying the offending string), and the `ValueError` Python's `max` would
raise on an empty probability vector. -/
inductive PredError where
  | notLoaded : String → PredError
  | missingFeatures : List String → PredError
  | invalidTaskType : String → PredError
  | emptyProbabilities : PredError
deriving DecidableEq, Repr

/-- `ModelService._validate_features`: raises on missing contract
features, warns on (and otherwise ignores) extra names, and returns the
single-row frame `pd.DataFrame([{feat: data[feat] for feat in
expected_features}])` — the contract's names in contract order, each
paired with the caller's value.  The `getD 0` default is unreachable:
the missing-check guarantees every expected name is present. -/
def validateFeatures (data : FeatureMap) (expected : List String) :
    Except PredError (List (String × ℚ)) :=
  let missing := expected.filter (fun f => ! hasKey data f)
  if missing ≠ [] then
    .error (.missingFeatures missing)
  else
    .ok (expected.map (fun f => (f, (lookupF data f).getD 0)))

/-- `ModelService._extract_feature_importances`: the model's
`feature_importances_` zipped with the names when the attribute exists,
otherwise every importance defaulted to `0.0`. -/
def extractFeatureImportances (model : Model) (featureNames : List String) :
    List (String × ℚ) :=
  match model.featureImportancesOpt with
  | some importances => featureNames.zip importances
  | none => featureNames.map (fun n => (n, 0))

/-- `max(probabilities)`: Python's `max` on a list, erroring on empty. -/
def listMax : List ℚ → Option ℚ
  | [] => none
  | x :: xs => some (xs.foldl max x)

/-- The shared body of `predict_es` / `predict_mro` once the model data is
at hand: validate, predict, take the larger class score as confidence,
attach importances, and return the caller's map verbatim as
`feature_values`. -/
def predictWithData (md : ModelData) (data : FeatureMap) (typeTag : String) :
    Except PredError PredictionResult :=
  match validateFeatures data md.featureNames with
  | .error e => .error e
  | .ok X =>
    let vec := X.map Prod.snd
    let prediction := md.model.predictFn vec
    let probabilities := md.model.predictProbaFn vec
    match listMax probabilities with
    | none => .error .emptyProbabilities
    | some confidence =>
      .ok { decision := prediction
            confidence := confidence
            probabilities := probabilities
            featureValues := data
            featureImportances := extractFeatureImportances md.model md.featureNames
            modelType := typeTag }

/-- Python's `str.upper()` for the ASCII task-type strings compared
here: every character uppercased. -/
def pyUpper (s : String) : String := ⟨s.data.map Char.toUpper⟩

/-- One dict appended to `path_nodes` by `_get_decision_path` (the
`condition` display string `f'{name} > {threshold:.2f}'` is presentation
derived from `featureName` and `threshold` and is not modelled). -/
structure PathNode where
  nodeId : Nat
  threshold : ℚ
  featureValue : ℚ
  featureName : String
  passed : Bool
deriving DecidableEq, Repr

/-- Python list indexing `xs[i]` with an `Int` index: non-negative
indices from the front, negative indices from the back, `none` for the
`IndexError` cases. -/
def pyGet (xs : List α) (i : Int) : Option α :=
  if 0 ≤ i then xs.get? i.toNat
  else if (-i).toNat ≤ xs.length then xs.get? (xs.length - (-i).toNat)
  else none

/-- The ordered sample row the sklearn calls receive: the caller's value
for each contract name, positionally.  `none` when some name is absent
from `X` (sklearn rejects such a frame before traversing). -/
def xVec (featureNames : List String) (X : FeatureMap) : Option (List ℚ) :=
  (featureNames.map (fun n => lookupF X n)).foldr
    (fun v acc => match v, acc with
      | some x, some xs => some (x :: xs)
      | _, _ => none)
    (some [])

/-- Model of sklearn's `decision_path` on a single sample: the node ids
from the root to the reached leaf, descending left when the sample's
value is `≤` the node's threshold and right otherwise.  `none` models the
error cases (malformed node ids, feature indices outside the sample, a
walk longer than the node count): `decision_path` raises there, and
`_get_decision_path`'s `except` turns that into an empty path. -/
def decisionPathAux (tree : SkTree) (vec : List ℚ) : Nat → Nat → Option (List Nat)
  | 0, _ => none
  | fuel + 1, i =>
    match tree.feature.get? i with
    | none => none
    | some f =>
      if f = -2 then some [i]
      else
        match tree.threshold.get? i, (if 0 ≤ f then vec.get? f.toNat else none) with
        | some t, some v =>
          let child := if v ≤ t then tree.childrenLeft.get? i else tree.childrenRight.get? i
          match child with
          | none => none
          | some c => (decisionPathAux tree vec fuel c).map (fun rest => i :: rest)
        | _, _ => none

/-- `decision_path` started at the root, with fuel covering any acyclic
walk through the tree's nodes. -/
def decisionPath (tree : SkTree) (vec : List ℚ) : Option (List Nat) :=
  decisionPathAux tree vec (tree.feature.length + 1) 0

/-- The `for node_id in node_index` loop of `_get_decision_path`: leaf
entries (`tree.feature[node_id] == -2`) are skipped, and each internal
entry is recorded with `passed = feature_value > threshold`.  A failed
array/name access inside the loop raises, the surrounding `except`
catches it, and the nodes accumulated so far are returned. -/
def extractLoop (tree : SkTree) (featureNames : List String) (X : FeatureMap) :
    List Nat → List PathNode → List PathNode
  | [], acc => acc
  | nodeId :: rest, acc =>
    match tree.feature.get? nodeId with
    | none => acc
    | some f =>
      if f = -2 then extractLoop tree featureNames X rest acc
      else
        match tree.threshold.get? nodeId, pyGet featureNames f with
        | some threshold, some featureName =>
          match lookupF X featureName with
          | some featureValue =>
            extractLoop tree featureNames X rest
              (acc ++ [{ nodeId := nodeId
                         threshold := threshold
                         featureValue := featureValue
                         featureName := featureName
                         passed := decide (featureValue > threshold) }])
          | none => acc
        | _, _ => acc

/-- `ModelService._get_decision_path`: when the model exposes
`estimators_`, trace its first member over the sample's `decision_path`;
every failure mode — no `estimators_` attribute (a single
`DecisionTreeClassifier`), an empty ensemble, a sample not matching the
contract, or a tree that cannot be walked — is caught by the `except`
and yields the nodes gathered so far (none, in all these cases). -/
def getDecisionPath (model : Model) (X : FeatureMap) (featureNames : List String) :
    List PathNode :=
  match model.estimators with
  | some (tree :: _) =>
    match xVec featureNames X with
    | none => []
    | some vec =>
      match decisionPath tree vec with
      | none => []
      | some nodeIndex => extractLoop tree featureNames X nodeIndex []
  | _ => []

/-- The mutable fields of a `ModelService` instance: `es_model_data` and
`mro_model_data`, both `None` until `load_models` runs. -/
structure ServiceState where
  esModelData : Option ModelData
  mroModelData : Option ModelData

/-- `ModelService.predict_es`. -/
def predictEs (svc : ServiceState) (data : FeatureMap) :
    Except PredError PredictionResult :=
  match svc.esModelData with
  | none => .error (.notLoaded "ES model not loaded. Call load_models() first.")
  | some md => predictWithData md data "ES"

/-- `ModelService.predict_mro`. -/
def predictMro (svc : ServiceState) (data : FeatureMap) :
    Except PredError PredictionResult :=
  match svc.mroModelData with
  | none => .error (.notLoaded "MRO model not loaded. Call load_models() first.")
  | some md => predictWithData md data "MRO"

/-- `ModelService.predict_with_trace`: dispatch on `model_type.upper()`,
predict, then rebuild the single-row frame
`pd.DataFrame([{feat: data[feat] for feat in feature_names}])` and extract
the decision path.  The `getD 0` default is unreachable: prediction has
already validated that every contract name is present. -/
def predictWithTrace (svc : ServiceState) (modelType : String) (data : FeatureMap) :
    Except PredError (PredictionResult × List PathNode) :=
  if pyUpper modelType = "ES" then
    match svc.esModelData with
    | none => .error (.notLoaded "ES model not loaded. Call load_models() first.")
    | some md =>
      match predictWithData md data "ES" with
      | .error e => .error e
      | .ok result =>
        let X := md.featureNames.map (fun f => (f, (lookupF data f).getD 0))
        .ok (result, getDecisionPath md.model X md.featureNames)
  else if pyUpper modelType = "MRO" then
    match svc.mroModelData with
    | none => .error (.notLoaded "MRO model not loaded. Call load_models() first.")
    | some md =>
      match predictWithData md data "MRO" with
      | .error e => .error e
      | .ok result =>
        let X := md.featureNames.map (fun f => (f, (lookupF data f).getD 0))
        .ok (result, getDecisionPath md.model X md.featureNames)
  else
    .error (.invalidTaskType modelType)

/-- The dict returned by `ModelService.get_model_info`. -/
structure ModelInfo where
  modelType : String
  features : List String
  nFeatures : Nat
  modelClass : String
deriving DecidableEq, Repr

/-- `ModelService.get_model_info`: dispatch on `model_type.upper()`
(raising `ValueError` for anything else), then raise `RuntimeError` when
that slot is unloaded, else report the artifact's metadata. -/
def getModelInfo (svc : ServiceState) (modelType : String) :
    Except PredError ModelInfo :=
  if pyUpper modelType = "ES" ∨ pyUpper modelType = "MRO" then
    match (if pyUpper modelType = "ES" then svc.esModelData else svc.mroModelData) with
    | none => .error (.notLoaded (modelType ++ " model not loaded"))
    | some md =>
      .ok { modelType := md.modelType
            features := md.featureNames
            nFeatures := md.featureNames.length
            modelClass := md.model.className }
  else
    .error (.invalidTaskType modelType)

/-- The two pickle files `load_models` opens: `none` models a missing or
unreadable file (`open`/`pickle.load` raising). -/
structure FileSystem where
  esFile : Option ModelData
  mroFile : Option ModelData

/-- The `RuntimeError` `load_models` re-raises on a load failure. -/
inductive LoadError where
  | loadFailed : String → LoadError
deriving DecidableEq, Repr

/-- `ModelService.load_models`: load the ES pickle into `es_model_data`,
then the MRO pickle into `mro_model_data`.  A failure raises after any
earlier assignment has already happened, so a failing MRO load leaves
the ES slot populated on the instance. -/
def loadModels (fs : FileSystem) (s : ServiceState) : ServiceState × Option LoadError :=
  match fs.esFile with
  | none => (s, some (.loadFailed "es_model.pkl"))
  | some es =>
    let s1 : ServiceState := { s with esModelData := some es }
    match fs.mroFile with
    | none => (s1, some (.loadFailed "mro_model.pkl"))
    | some mro => ({ s1 with mroModelData := some mro }, none)

/-- `get_model_service`: when the global `_model_service` is unset, a
fresh instance is assigned to it *before* `load_models` runs; a load
failure propagates to this first caller, but the (possibly partially
loaded) instance stays cached in the global, and every later call
returns it unchanged. -/
def getModelService (fs : FileSystem) (g : Option ServiceState) :
    Option ServiceState × Except LoadError ServiceState :=
  match g with
  | some s => (some s, .ok s)
  | none =>
    let s0 : ServiceState := { esModelData := none, mroModelData := none }
    let (s1, err) := loadModels fs s0
    (some s1, match err with
      | none => .ok s1
      | some e => .error e)

/-- One entry of the decision-path array the trace endpoint returns: an
internal comparison node carries its threshold and the caller's value, a
terminal entry carries neither. -/
structure TraceNode where
  featureName : String
  threshold : Option ℚ
  featureValue : Option ℚ
  passed : Bool
deriving DecidableEq, Repr

/-- An internal node of the extractor's path, as the trace endpoint
reports it. -/
def internalTraceNode (n : PathNode) : TraceNode :=
  { featureName := n.featureName
    threshold := some n.threshold
    featureValue := some n.featureValue
    passed := n.passed }

/-- Modelled from the spec: the synthetic terminal node of the decision
path — feature_name is the sentinel "LEAF", it carries no threshold
condition, and it is always marked passed. -/
def leafTraceNode : TraceNode :=
  { featureName := "LEAF", threshold := none, featureValue := none, passed := true }

/-- Modelled from the spec: the prediction-with-trace endpoint layer
(the HTTP module `test_api.py` exercises via `/predict/trace`, absent
from src/) appends the synthetic LEAF terminal node "to represent the
final classification outcome" to the extractor's path.  The internal
nodes are exactly those of `_get_decision_path`. -/
def tracePath (model : Model) (X : FeatureMap) (featureNames : List String) :
    List TraceNode :=
  (getDecisionPath model X featureNames).map internalTraceNode ++ [leafTraceNode]

/-- The ES Feature Contract, from `create_models.create_es_model`. -/
def esFeatureNames : List String :=
  ["Persistent Low Load Score", "Energy Inefficiency Score",
   "Stable QoS Confidence", "Mobility Safety Index", "Social Event Score",
   "Traffic Volatility Index", "Weather Sensitivity Score", "n_alarm"]

/-- The MRO Feature Contract, from `create_models.create_mro_model`. -/
def mroFeatureNames : List String :=
  ["Handover Failure Pressure", "Handover Success Stability",
   "Congestion-Induced HO Risk", "Mobility Volatility Index",
   "Weather-Driven Mobility Risk", "n_alarm", "Social Event Score"]

/-! ## Concrete fixtures

A depth-one tree over a one-feature contract, packaged once as the first
member of an ensemble and once as a bare `DecisionTreeClassifier`-style
artifact (no `estimators_`), with small concrete inputs.  These drive the
witnesses and counterexamples. -/

/-- Root splits on feature 0 at 1; nodes 1 and 2 are leaves
(`feature = -2`, sklearn stores `-2` as their threshold too). -/
def cTree : SkTree :=
  { feature := [0, -2, -2]
    threshold := [1, -2, -2]
    childrenLeft := [1, 0, 0]
    childrenRight := [2, 0, 0] }

/-- An ensemble artifact whose first fitted member is `cTree`. -/
def cForestModel : Model :=
  { estimators := some [cTree]
    tree := none
    predictFn := fun _ => true
    predictProbaFn := fun _ => [0, 1]
    featureImportancesOpt := some [1]
    className := "RandomForestClassifier" }

/-- A single-tree artifact: its own `tree_` is `cTree`, and it exposes no
`estimators_`, as `DecisionTreeClassifier` (the class `create_models.py`
fits) does not. -/
def cSingleModel : Model :=
  { estimators := none
    tree := some cTree
    predictFn := fun _ => true
    predictProbaFn := fun _ => [0, 1]
    featureImportancesOpt := some [1]
    className := "DecisionTreeClassifier" }

/-- The one-feature contract the fixtures use. -/
def cNames : List String := ["a"]

/-- ES artifact dict built on the ensemble fixture. -/
def cEsMd : ModelData :=
  { model := cForestModel, featureNames := cNames, modelType := "ES" }

/-- MRO artifact dict built on the ensemble fixture. -/
def cMroMd : ModelData :=
  { model := cForestModel, featureNames := cNames, modelType := "MRO" }

/-- ES artifact dict built on the single-tree fixture. -/
def cEsSingleMd : ModelData :=
  { model := cSingleModel, featureNames := cNames, modelType := "ES" }

/-- A service with both slots loaded (ensemble fixtures). -/
def cSvc : ServiceState :=
  { esModelData := some cEsMd, mroModelData := some cMroMd }

/-- A service whose ES slot holds the single-tree fixture. -/
def cSvcSingle : ServiceState :=
  { esModelData := some cEsSingleMd, mroModelData := some cMroMd }

/-- A valid input on the fixture contract. -/
def cData : FeatureMap := [("a", 0)]

/-- A valid input sitting exactly on the root threshold. -/
def cDataEq : FeatureMap := [("a", 1)]

/-- A valid input carrying an extra, non-contract name. -/
def cDataExtra : FeatureMap := [("a", 0), ("zzz", 1)]

/-- An input missing the contract feature. -/
def cDataMissing : FeatureMap := [("zzz", 1)]

/-- A filesystem in which the ES pickle is present and the MRO pickle is
missing. -/
def cFsMroMissing : FileSystem := { esFile := some cEsMd, mroFile := none }

/-- The service instance left in the singleton after the failing load on
`cFsMroMissing`: ES loaded, MRO not. -/
def cPartialSvc : ServiceState := (loadModels cFsMroMissing ⟨none, none⟩).1

end ReportEms

namespace ReportEms

/-! ## Characterization of feature validation -/

/-- `_validate_features` raises exactly when the missing-name filter is
nonempty, and the raised error enumerates that filter. -/
theorem validateFeatures_error_iff (data : FeatureMap) (expected : List String)
    (e : PredError) :
    validateFeatures data expected = .error e ↔
      (e = .missingFeatures (expected.filter (fun f => ! hasKey data f)) ∧
       expected.filter (fun f => ! hasKey data f) ≠ []) := by
  unfold validateFeatures
  by_cases h : expected.filter (fun f => ! hasKey data f) = [] <;>
    simp [h, eq_comm]

/-- `_validate_features` succeeds exactly when no contract name is
missing, and then returns the contract-ordered row. -/
theorem validateFeatures_ok_iff (data : FeatureMap) (expected : List String)
    (X : List (String × ℚ)) :
    validateFeatures data expected = .ok X ↔
      (expected.filter (fun f => ! hasKey data f) = [] ∧
       X = expected.map (fun f => (f, (lookupF data f).getD 0))) := by
  unfold validateFeatures
  by_cases h : expected.filter (fun f => ! hasKey data f) = [] <;>
    simp [h, eq_comm]

/-- Membership in the missing-name filter. -/
theorem missing_filter_mem (data : FeatureMap) (expected : List String) (f : String) :
    f ∈ expected.filter (fun g => ! hasKey data g) ↔
      f ∈ expected ∧ hasKey data f = false := by
  simp [List.mem_filter]

/-- The missing-name filter is nonempty exactly when some contract name
is absent. -/
theorem missing_filter_ne_nil (data : FeatureMap) (expected : List String) :
    expected.filter (fun g => ! hasKey data g) ≠ [] ↔
      ∃ f ∈ expected, hasKey data f = false := by
  constructor
  · intro h
    rcases List.exists_mem_of_ne_nil _ h with ⟨f, hf⟩
    rcases (missing_filter_mem data expected f).mp hf with ⟨h1, h2⟩
    exact ⟨f, h1, h2⟩
  · rintro ⟨f, h1, h2⟩
    exact List.ne_nil_of_mem ((missing_filter_mem data expected f).mpr ⟨h1, h2⟩)

/-- The shared prediction body raises `missingFeatures ms` exactly when
`ms` is the nonempty missing-name filter: prediction has no other source
of that error. -/
theorem predictWithData_missing_iff (md : ModelData) (data : FeatureMap) (tag : String)
    (ms : List String) :
    predictWithData md data tag = .error (.missingFeatures ms) ↔
      (ms = md.featureNames.filter (fun f => ! hasKey data f) ∧ ms ≠ []) := by
  unfold predictWithData
  cases hv : validateFeatures data md.featureNames with
  | error e =>
    obtain ⟨he, hne⟩ := (validateFeatures_error_iff _ _ _).mp hv
    subst he
    constructor
    · intro h
      injection h with h
      injection h with h
      exact ⟨h.symm, h.symm ▸ hne⟩
    · rintro ⟨h, -⟩
      rw [h]
  | ok X =>
    obtain ⟨hfil, -⟩ := (validateFeatures_ok_iff _ _ _).mp hv
    constructor
    · intro h
      dsimp only at h
      cases hl : listMax (md.model.predictProbaFn (X.map Prod.snd)) <;>
        rw [hl] at h <;> simp at h
    · rintro ⟨h, hne⟩
      exact absurd (h.trans hfil) hne

/-- A successful prediction hands back the caller's map verbatim in
`feature_values`. -/
theorem predictWithData_ok_featureValues (md : ModelData) (data : FeatureMap)
    (tag : String) (r : PredictionResult) :
    predictWithData md data tag = .ok r → r.featureValues = data := by
  unfold predictWithData
  cases hv : validateFeatures data md.featureNames with
  | error e => intro h; cases h
  | ok X =>
    intro h
    dsimp only at h
    cases hl : listMax (md.model.predictProbaFn (X.map Prod.snd)) <;> rw [hl] at h
    · cases h
    · injection h with h
      rw [← h]

end ReportEms

namespace ReportEms

/-! ## Claims C4, C6, C7, C10 -/

/-- C4: prediction raises `MissingFeatures` if and only if some contract
feature is absent from the input map; the error enumerates exactly the
missing names; inputs containing all contract features (extras allowed)
never raise it. -/
theorem claim_C4_missing_features_iff (svc : ServiceState) (esMd mroMd : ModelData)
    (data : FeatureMap)
    (hes : svc.esModelData = some esMd) (hmro : svc.mroModelData = some mroMd) :
    ((∃ ms, predictEs svc data = .error (.missingFeatures ms)) ↔
      ∃ f ∈ esMd.featureNames, hasKey data f = false) ∧
    (∀ ms f, predictEs svc data = .error (.missingFeatures ms) →
      (f ∈ ms ↔ f ∈ esMd.featureNames ∧ hasKey data f = false)) ∧
    ((∃ ms, predictMro svc data = .error (.missingFeatures ms)) ↔
      ∃ f ∈ mroMd.featureNames, hasKey data f = false) ∧
    (∀ ms f, predictMro svc data = .error (.missingFeatures ms) →
      (f ∈ ms ↔ f ∈ mroMd.featureNames ∧ hasKey data f = false)) := by
  have key : ∀ (md : ModelData) (tag : String),
      ((∃ ms, predictWithData md data tag = .error (.missingFeatures ms)) ↔
        ∃ f ∈ md.featureNames, hasKey data f = false) ∧
      (∀ ms f, predictWithData md data tag = .error (.missingFeatures ms) →
        (f ∈ ms ↔ f ∈ md.featureNames ∧ hasKey data f = false)) := by
    intro md tag
    constructor
    · constructor
      · rintro ⟨ms, h⟩
        obtain ⟨hmsEq, hne⟩ := (predictWithData_missing_iff md data tag ms).mp h
        exact (missing_filter_ne_nil data md.featureNames).mp (hmsEq ▸ hne)
      · intro hex
        exact ⟨md.featureNames.filter (fun g => ! hasKey data g),
          (predictWithData_missing_iff md data tag _).mpr
            ⟨rfl, (missing_filter_ne_nil data md.featureNames).mpr hex⟩⟩
    · intro ms f h
      obtain ⟨hmsEq, -⟩ := (predictWithData_missing_iff md data tag ms).mp h
      rw [hmsEq]
      exact missing_filter_mem data md.featureNames f
  simp only [predictEs, predictMro, hes, hmro]
  exact ⟨(key esMd "ES").1, (key esMd "ES").2, (key mroMd "MRO").1, (key mroMd "MRO").2⟩

/-- C4 witness: on the fixture contract `["a"]`, the input `[("zzz", 1)]`
raises `MissingFeatures` and the valid input with an extra name
does not. -/
theorem claim_C4_missing_features_iff_witness :
    (∃ ms, predictEs cSvc cDataMissing = .error (.missingFeatures ms)) ∧
    ¬ (∃ ms, predictEs cSvc cDataExtra = .error (.missingFeatures ms)) := by
  constructor
  · exact (claim_C4_missing_features_iff cSvc cEsMd cMroMd cDataMissing rfl rfl).1.mpr
      ⟨"a", by decide, by decide⟩
  · intro hex
    rcases (claim_C4_missing_features_iff cSvc cEsMd cMroMd cDataExtra rfl rfl).1.mp hex
      with ⟨f, hf, hk⟩
    have : f = "a" := by
      simpa [cEsMd, cNames] using hf
    subst this
    exact absurd hk (by decide)

/-- C6 counterexample: with contract `["a"]` and caller input
`[("a", 0), ("zzz", 1)]`, the returned `feature_values` is the caller's
map verbatim, so the non-contract name "zzz" appears in it — the claim's
contract-filtering does not happen. -/
theorem claim_C6_counterexample :
    (predictEs cSvc cDataExtra).map (fun r => r.featureValues) = .ok cDataExtra ∧
    hasKey cDataExtra "zzz" = true ∧ "zzz" ∉ cEsMd.featureNames := by
  refine ⟨by rfl, by rfl, by decide⟩

/-- C6 amended: for every valid input map, the result's `feature_values`
is the caller's input verbatim — extra names included, nothing
contract-filtered. -/
theorem claim_C6_feature_values_verbatim (svc : ServiceState) (data : FeatureMap)
    (r : PredictionResult) :
    (predictEs svc data = .ok r → r.featureValues = data) ∧
    (predictMro svc data = .ok r → r.featureValues = data) := by
  constructor
  · intro h
    unfold predictEs at h
    cases hs : svc.esModelData with
    | none => rw [hs] at h; cases h
    | some md => rw [hs] at h; exact predictWithData_ok_featureValues md data "ES" r h
  · intro h
    unfold predictMro at h
    cases hs : svc.mroModelData with
    | none => rw [hs] at h; cases h
    | some md => rw [hs] at h; exact predictWithData_ok_featureValues md data "MRO" r h

/-- C6 amended witness: the concrete extra-name input comes back
verbatim. -/
theorem claim_C6_feature_values_verbatim_witness :
    (predictEs cSvc cDataExtra).map (fun r => r.featureValues) = .ok cDataExtra := by
  have h : predictEs cSvc cDataExtra = .ok
      { decision := true, confidence := 1, probabilities := [0, 1],
        featureValues := cDataExtra, featureImportances := [("a", 1)],
        modelType := "ES" } := by rfl
  have := (claim_C6_feature_values_verbatim cSvc cDataExtra _).1 h
  rw [h, Except.map, this]

end ReportEms

namespace ReportEms

/-- C7: the row handed to the model contains exactly the contract's
names in contract order, each with the caller's value; and validation's
outcome depends only on the input's values at contract names, so extra
names can neither corrupt a value nor move a position. -/
theorem claim_C7_contract_vector :
    (∀ (data : FeatureMap) (expected : List String) (X : List (String × ℚ)),
      validateFeatures data expected = .ok X →
        X.map Prod.fst = expected ∧ ∀ p ∈ X, lookupF data p.1 = some p.2) ∧
    (∀ (d1 d2 : FeatureMap) (expected : List String),
      (∀ f ∈ expected, lookupF d1 f = lookupF d2 f) →
      validateFeatures d1 expected = validateFeatures d2 expected) := by
  constructor
  · intro data expected X h
    obtain ⟨hfil, hX⟩ := (validateFeatures_ok_iff data expected X).mp h
    subst hX
    constructor
    · simp [Function.comp_def]
    · intro p hp
      rcases List.mem_map.mp hp with ⟨f, hf, hpf⟩
      have hkey : hasKey data f = true := by
        by_contra hk
        have : f ∈ expected.filter (fun g => ! hasKey data g) :=
          (missing_filter_mem data expected f).mpr
            ⟨hf, by revert hk; cases hasKey data f <;> simp⟩
        rw [hfil] at this
        cases this
      rcases Option.isSome_iff_exists.mp hkey with ⟨v, hv⟩
      rw [← hpf]
      simp [hv]
  · intro d1 d2 expected hagree
    unfold validateFeatures
    have hfil : expected.filter (fun f => ! hasKey d1 f) =
        expected.filter (fun f => ! hasKey d2 f) :=
      List.filter_congr (fun f hf => by unfold hasKey; rw [hagree f hf])
    have hmap : expected.map (fun f => (f, (lookupF d1 f).getD 0)) =
        expected.map (fun f => (f, (lookupF d2 f).getD 0)) :=
      List.map_congr_left (fun f hf => by rw [hagree f hf])
    rw [hfil, hmap]

/-- C7 witness: adding the non-contract name "zzz" leaves the validated
row for the contract `["a"]` unchanged. -/
theorem claim_C7_contract_vector_witness :
    validateFeatures cDataExtra cNames = validateFeatures cData cNames ∧
    validateFeatures cData cNames = .ok [("a", 0)] := by
  refine ⟨claim_C7_contract_vector.2 cDataExtra cData cNames ?_, by rfl⟩
  intro f hf
  have : f = "a" := by simpa [cNames] using hf
  subst this
  rfl

/-- C10: prediction with trace is a pure function of the service state,
task type and feature map — two calls on identical arguments return the
same decision, confidence and probabilities. -/
theorem claim_C10_determinism (svc : ServiceState) (taskType : String)
    (data : FeatureMap) (r1 r2 : PredictionResult × List PathNode)
    (h1 : predictWithTrace svc taskType data = .ok r1)
    (h2 : predictWithTrace svc taskType data = .ok r2) :
    r1.1.decision = r2.1.decision ∧ r1.1.confidence = r2.1.confidence ∧
      r1.1.probabilities = r2.1.probabilities := by
  have h : r1 = r2 := Except.ok.inj (h1.symm.trans h2)
  subst h
  exact ⟨rfl, rfl, rfl⟩

/-- The concrete output of the fixture call `predictWithTrace cSvc "ES"
cData`. -/
def cPredOut : PredictionResult × List PathNode :=
  ({ decision := true, confidence := 1, probabilities := [0, 1],
     featureValues := cData, featureImportances := [("a", 1)],
     modelType := "ES" },
   [{ nodeId := 0, threshold := 1, featureValue := 0, featureName := "a",
      passed := false }])

/-- C10 witness: the fixture call is reproducible at its concrete
output. -/
theorem claim_C10_determinism_witness :
    cPredOut.1.decision = cPredOut.1.decision ∧
    cPredOut.1.confidence = cPredOut.1.confidence ∧
    cPredOut.1.probabilities = cPredOut.1.probabilities :=
  claim_C10_determinism cSvc "ES" cData cPredOut cPredOut (by rfl) (by rfl)

end ReportEms

namespace ReportEms

/-- What `extractLoop` guarantees about every node it emits. -/
def SoundNode (tree : SkTree) (names : List String) (X : FeatureMap)
    (n : PathNode) : Prop :=
  ∃ f : Int,
    tree.feature.get? n.nodeId = some f ∧ f ≠ -2 ∧
    pyGet names f = some n.featureName ∧
    tree.threshold.get? n.nodeId = some n.threshold ∧
    lookupF X n.featureName = some n.featureValue ∧
    n.passed = decide (n.featureValue > n.threshold)

theorem extractLoop_sound (tree : SkTree) (names : List String) (X : FeatureMap)
    (idxs : List Nat) :
    ∀ (acc : List PathNode) (n : PathNode),
      n ∈ extractLoop tree names X idxs acc →
      n ∈ acc ∨ SoundNode tree names X n := by
  induction idxs with
  | nil =>
    intro acc n h
    rw [extractLoop] at h
    exact .inl h
  | cons i rest ih =>
    intro acc n h
    rw [extractLoop] at h
    cases hf : tree.feature.get? i with
    | none => rw [hf] at h; exact .inl h
    | some f =>
      rw [hf] at h
      dsimp only at h
      by_cases hleaf : f = -2
      · rw [if_pos hleaf] at h
        exact ih acc n h
      · rw [if_neg hleaf] at h
        cases ht : tree.threshold.get? i with
        | none =>
          cases hg : pyGet names f with
          | none => rw [ht, hg] at h; exact .inl h
          | some name => rw [ht, hg] at h; exact .inl h
        | some t =>
          cases hg : pyGet names f with
          | none => rw [ht, hg] at h; exact .inl h
          | some name =>
            rw [ht, hg] at h
            dsimp only at h
            cases hx : lookupF X name with
            | none => rw [hx] at h; exact .inl h
            | some v =>
              rw [hx] at h
              rcases ih _ n h with hacc | hsound
              · rcases List.mem_append.mp hacc with hacc2 | hnode
                · exact .inl hacc2
                · right
                  rw [List.mem_singleton] at hnode
                  subst hnode
                  exact ⟨f, hf, hleaf, hg, ht, hx, rfl⟩
              · exact .inr hsound

theorem getDecisionPath_sound (model : Model) (X : FeatureMap)
    (names : List String) (n : PathNode)
    (h : n ∈ getDecisionPath model X names) :
    (∃ tree rest, model.estimators = some (tree :: rest) ∧
      SoundNode tree names X n) := by
  unfold getDecisionPath at h
  cases he : model.estimators with
  | none => rw [he] at h; cases h
  | some l =>
    cases l with
    | nil => rw [he] at h; cases h
    | cons tree rest =>
      rw [he] at h
      dsimp only at h
      cases hv : xVec names X with
      | none => rw [hv] at h; cases h
      | some vec =>
        rw [hv] at h
        dsimp only at h
        cases hp : decisionPath tree vec with
        | none => rw [hp] at h; cases h
        | some idxs =>
          rw [hp] at h
          rcases extractLoop_sound tree names X idxs [] n h with hacc | hsound
          · cases hacc
          · exact ⟨tree, rest, rfl, hsound⟩

end ReportEms

namespace ReportEms

/-- A successful Python list index returns an element of the list. -/
theorem pyGet_mem (xs : List α) (i : Int) (a : α) (h : pyGet xs i = some a) :
    a ∈ xs := by
  unfold pyGet at h
  split at h
  · exact List.get?_mem h
  · split at h
    · exact List.get?_mem h
    · cases h

/-- C3: every node the extractor records carries the caller's value for
its feature, and its passed flag is exactly the strict comparison
`feature_value > threshold`; at equality the flag is false. -/
theorem claim_C3_passed_strict_gt (model : Model) (X : FeatureMap)
    (names : List String) (n : PathNode)
    (h : n ∈ getDecisionPath model X names) :
    lookupF X n.featureName = some n.featureValue ∧
    n.passed = decide (n.featureValue > n.threshold) ∧
    (n.featureValue = n.threshold → n.passed = false) := by
  obtain ⟨tree, rest, -, f, -, -, -, -, hX, hp⟩ :=
    getDecisionPath_sound model X names n h
  refine ⟨hX, hp, fun he => ?_⟩
  rw [hp, he]
  simp

/-- The node the fixture equality-boundary input produces. -/
def cNodeEq : PathNode :=
  { nodeId := 0, threshold := 1, featureValue := 1, featureName := "a",
    passed := false }

/-- C3 witness: at an input exactly on the root threshold the recorded
node is not passed. -/
theorem claim_C3_passed_strict_gt_witness :
    lookupF cDataEq cNodeEq.featureName = some cNodeEq.featureValue ∧
    cNodeEq.passed = decide (cNodeEq.featureValue > cNodeEq.threshold) ∧
    (cNodeEq.featureValue = cNodeEq.threshold → cNodeEq.passed = false) :=
  claim_C3_passed_strict_gt cForestModel cDataEq cNames cNodeEq (by decide)

end ReportEms

namespace ReportEms

/-- C1: the trace returned to the caller ends in exactly one synthetic
LEAF node — feature_name "LEAF", no threshold condition, passed — and,
as long as "LEAF" is not itself a contract feature name, no other entry
of the trace is a LEAF node. -/
theorem claim_C1_leaf_terminated (model : Model) (X : FeatureMap)
    (names : List String) (hLeaf : "LEAF" ∉ names) :
    (tracePath model X names).getLast? = some leafTraceNode ∧
    leafTraceNode.featureName = "LEAF" ∧
    leafTraceNode.threshold = none ∧
    leafTraceNode.passed = true ∧
    (∀ t ∈ (tracePath model X names).dropLast, t.featureName ≠ "LEAF") := by
  refine ⟨?_, rfl, rfl, rfl, ?_⟩
  · unfold tracePath
    rw [List.getLast?_concat]
  · unfold tracePath
    rw [List.dropLast_concat]
    intro t ht
    rcases List.mem_map.mp ht with ⟨n, hn, hmap⟩
    obtain ⟨tree, rest, -, f, -, -, hg, -, -, -⟩ :=
      getDecisionPath_sound model X names n hn
    have hmem : n.featureName ∈ names := pyGet_mem names f n.featureName hg
    intro heq
    rw [← hmap] at heq
    unfold internalTraceNode at heq
    dsimp at heq
    rw [heq] at hmem
    exact hLeaf hmem

/-- C1 witness: the fixture call's trace is LEAF-terminated with no
other LEAF entry. -/
theorem claim_C1_leaf_terminated_witness :
    (tracePath cForestModel cData cNames).getLast? = some leafTraceNode ∧
    leafTraceNode.featureName = "LEAF" ∧
    leafTraceNode.threshold = none ∧
    leafTraceNode.passed = true ∧
    (∀ t ∈ (tracePath cForestModel cData cNames).dropLast, t.featureName ≠ "LEAF") :=
  claim_C1_leaf_terminated cForestModel cData cNames (by decide)

end ReportEms

namespace ReportEms

/-- C2 counterexample: `cSingleModel` is a single-tree artifact (no
`estimators_`) whose own tree has an internal root node, yet the
extractor returns an empty decision path for it. -/
theorem claim_C2_counterexample :
    cSingleModel.estimators = none ∧
    cSingleModel.tree = some cTree ∧
    cTree.feature.get? 0 = some 0 ∧ (0 : Int) ≠ -2 ∧
    getDecisionPath cSingleModel cData cNames = [] := by
  exact ⟨rfl, rfl, rfl, by decide, rfl⟩

/-- C2 amended: the extractor traces a tree only when the model exposes
`estimators_`, in which case it deterministically uses the first member
(the path never depends on the remaining members); a model without
`estimators_` — a single-tree artifact — always yields an empty path. -/
theorem claim_C2_first_tree :
    (∀ (model : Model) (X : FeatureMap) (names : List String),
      model.estimators = none → getDecisionPath model X names = []) ∧
    (∀ (model : Model) (X : FeatureMap) (names : List String)
       (tree : SkTree) (rest1 rest2 : List SkTree),
      getDecisionPath { model with estimators := some (tree :: rest1) } X names =
        getDecisionPath { model with estimators := some (tree :: rest2) } X names) := by
  constructor
  · intro model X names h
    unfold getDecisionPath
    rw [h]
  · intro model X names tree rest1 rest2
    rfl

/-- C2 witness: the single-tree fixture yields an empty path, and the
fixture ensemble's path is unchanged by appending further members. -/
theorem claim_C2_first_tree_witness :
    getDecisionPath cSingleModel cData cNames = [] ∧
    getDecisionPath { cForestModel with estimators := some [cTree, cTree] } cData cNames =
      getDecisionPath { cForestModel with estimators := some [cTree] } cData cNames :=
  ⟨claim_C2_first_tree.1 cSingleModel cData cNames rfl,
   claim_C2_first_tree.2 cForestModel cData cNames cTree [cTree] [] ⟩

end ReportEms

namespace ReportEms

/-- C8: trace extraction cannot fail a request — whenever prediction
succeeds, prediction-with-trace succeeds with some (possibly empty)
path — and each traversal-failure mode (no `estimators_`, an empty
ensemble, a sample not matching the contract, an untraversable tree)
yields the empty path. -/
theorem claim_C8_trace_failure_nonfatal :
    (∀ (svc : ServiceState) (data : FeatureMap) (r : PredictionResult),
      predictEs svc data = .ok r →
        ∃ path, predictWithTrace svc "ES" data = .ok (r, path)) ∧
    (∀ (svc : ServiceState) (data : FeatureMap) (r : PredictionResult),
      predictMro svc data = .ok r →
        ∃ path, predictWithTrace svc "MRO" data = .ok (r, path)) ∧
    (∀ (model : Model) (X : FeatureMap) (names : List String),
      (model.estimators = none ∨ model.estimators = some []) →
        getDecisionPath model X names = []) ∧
    (∀ (model : Model) (X : FeatureMap) (names : List String)
       (tree : SkTree) (rest : List SkTree),
      model.estimators = some (tree :: rest) →
      (xVec names X = none ∨
        (∀ vec, xVec names X = some vec → decisionPath tree vec = none)) →
        getDecisionPath model X names = []) := by
  refine ⟨?_, ?_, ?_, ?_⟩
  · intro svc data r h
    unfold predictEs at h
    cases hs : svc.esModelData with
    | none => rw [hs] at h; cases h
    | some md =>
      rw [hs] at h
      dsimp only at h
      refine ⟨getDecisionPath md.model
        (md.featureNames.map (fun f => (f, (lookupF data f).getD 0)))
        md.featureNames, ?_⟩
      unfold predictWithTrace
      rw [if_pos (show pyUpper "ES" = "ES" from rfl), hs]
      dsimp only
      rw [h]
  · intro svc data r h
    unfold predictMro at h
    cases hs : svc.mroModelData with
    | none => rw [hs] at h; cases h
    | some md =>
      rw [hs] at h
      dsimp only at h
      refine ⟨getDecisionPath md.model
        (md.featureNames.map (fun f => (f, (lookupF data f).getD 0)))
        md.featureNames, ?_⟩
      unfold predictWithTrace
      rw [if_neg (show ¬ pyUpper "MRO" = "ES" by decide),
        if_pos (show pyUpper "MRO" = "MRO" from rfl), hs]
      dsimp only
      rw [h]
  · intro model X names h
    unfold getDecisionPath
    rcases h with h | h <;> rw [h]
  · intro model X names tree rest hest h
    unfold getDecisionPath
    rw [hest]
    dsimp only
    cases hv : xVec names X with
    | none => rfl
    | some vec =>
      rcases h with h | h
      · rw [hv] at h; cases h
      · dsimp only
        rw [h vec hv]

/-- The concrete prediction the single-tree fixture service returns. -/
def cSingleOut : PredictionResult :=
  { decision := true, confidence := 1, probabilities := [0, 1],
    featureValues := cData, featureImportances := [("a", 1)],
    modelType := "ES" }

/-- C8 witness: on the single-tree artifact (untraceable by the
extractor) prediction-with-trace still succeeds. -/
theorem claim_C8_trace_failure_nonfatal_witness :
    ∃ path, predictWithTrace cSvcSingle "ES" cData = .ok (cSingleOut, path) :=
  claim_C8_trace_failure_nonfatal.1 cSvcSingle cData cSingleOut (by rfl)

end ReportEms

namespace ReportEms

/-- The prediction body never raises the unknown-model-type error: its
only failures are missing features and an empty probability vector. -/
theorem predictWithData_no_invalid (md : ModelData) (data : FeatureMap)
    (tag : String) (s : String) :
    predictWithData md data tag ≠ .error (.invalidTaskType s) := by
  unfold predictWithData
  cases hv : validateFeatures data md.featureNames with
  | error e =>
    obtain ⟨he, -⟩ := (validateFeatures_error_iff _ _ _).mp hv
    subst he
    intro h
    injection h with h
    cases h
  | ok X =>
    dsimp only
    cases hl : listMax (md.model.predictProbaFn (X.map Prod.snd)) <;>
      intro h <;> cases h

/-- C9 counterexample: the lowercase strings "es" and "mro" are outside
{ES, MRO} yet are accepted by both operations — dispatch uppercases the
task type first. -/
theorem claim_C9_counterexample :
    (predictWithTrace cSvc "es" cData).isOk = true ∧
    (getModelInfo cSvc "mro").isOk = true ∧
    "es" ≠ "ES" ∧ "es" ≠ "MRO" ∧ "mro" ≠ "ES" ∧ "mro" ≠ "MRO" := by
  exact ⟨by rfl, by rfl, by decide, by decide, by decide, by decide⟩

/-- C9 amended: the operations fail with the unknown-model-type error
exactly when the uppercased task type is outside {ES, MRO}; for strings
uppercasing to ES or MRO the error is never raised, and on failure no
result is produced. -/
theorem claim_C9_invalid_task_type (svc : ServiceState) (taskType : String)
    (data : FeatureMap) :
    ((∃ s, predictWithTrace svc taskType data = .error (.invalidTaskType s)) ↔
      (pyUpper taskType ≠ "ES" ∧ pyUpper taskType ≠ "MRO")) ∧
    ((∃ s, getModelInfo svc taskType = .error (.invalidTaskType s)) ↔
      (pyUpper taskType ≠ "ES" ∧ pyUpper taskType ≠ "MRO")) := by
  constructor
  · constructor
    · rintro ⟨s, h⟩
      unfold predictWithTrace at h
      by_cases hes : pyUpper taskType = "ES"
      · rw [if_pos hes] at h
        exfalso
        cases hs : svc.esModelData with
        | none => rw [hs] at h; cases h
        | some md =>
          rw [hs] at h
          dsimp only at h
          cases hp : predictWithData md data "ES" with
          | error e =>
            rw [hp] at h
            injection h with h
            exact predictWithData_no_invalid md data "ES" s (by rw [hp, h])
          | ok r => rw [hp] at h; cases h
      · rw [if_neg hes] at h
        by_cases hmro : pyUpper taskType = "MRO"
        · rw [if_pos hmro] at h
          exfalso
          cases hs : svc.mroModelData with
          | none => rw [hs] at h; cases h
          | some md =>
            rw [hs] at h
            dsimp only at h
            cases hp : predictWithData md data "MRO" with
            | error e =>
              rw [hp] at h
              injection h with h
              exact predictWithData_no_invalid md data "MRO" s (by rw [hp, h])
            | ok r => rw [hp] at h; cases h
        · exact ⟨hes, hmro⟩
    · rintro ⟨hes, hmro⟩
      refine ⟨taskType, ?_⟩
      unfold predictWithTrace
      rw [if_neg hes, if_neg hmro]
  · constructor
    · rintro ⟨s, h⟩
      unfold getModelInfo at h
      by_cases hd : pyUpper taskType = "ES" ∨ pyUpper taskType = "MRO"
      · rw [if_pos hd] at h
        exfalso
        cases hs : (if pyUpper taskType = "ES" then svc.esModelData else svc.mroModelData) with
        | none => rw [hs] at h; cases h
        | some md => rw [hs] at h; cases h
      · rw [if_neg hd] at h
        exact not_or.mp hd
    · rintro ⟨hes, hmro⟩
      refine ⟨taskType, ?_⟩
      unfold getModelInfo
      rw [if_neg (by exact not_or.mpr ⟨hes, hmro⟩)]

/-- C9 witness: a string whose uppercasing is outside {ES, MRO} is
rejected by both operations. -/
theorem claim_C9_invalid_task_type_witness :
    (∃ s, predictWithTrace cSvc "XYZ" cData = .error (.invalidTaskType s)) ∧
    (∃ s, getModelInfo cSvc "XYZ" = .error (.invalidTaskType s)) :=
  ⟨(claim_C9_invalid_task_type cSvc "XYZ" cData).1.mpr ⟨by decide, by decide⟩,
   (claim_C9_invalid_task_type cSvc "XYZ" cData).2.mpr ⟨by decide, by decide⟩⟩

end ReportEms

namespace ReportEms

/-- C5 counterexample: with the MRO pickle missing, a later call to
`get_model_service` returns the cached, partially-loaded service — ES
loaded, MRO not — so a request does observe the partially-loaded
state the claim rules out. -/
theorem claim_C5_counterexample :
    (getModelService cFsMroMissing ((getModelService cFsMroMissing none).1)).2 =
      .ok cPartialSvc ∧
    cPartialSvc.esModelData.isSome = true ∧
    cPartialSvc.mroModelData.isSome = false := by
  exact ⟨rfl, rfl, rfl⟩

/-- C5 amended: when the MRO artifact is missing, the first
`get_model_service` call does fail with the load error, but the
partially-loaded instance stays cached in the singleton: every later
call returns a service with ES loaded and MRO not, on which ES
predictions succeed while MRO predictions fail per-request. -/
theorem claim_C5_partial_load (fs : FileSystem) (es : ModelData)
    (hes : fs.esFile = some es) (hmro : fs.mroFile = none) :
    (getModelService fs none).2 = .error (.loadFailed "mro_model.pkl") ∧
    ∃ s, (getModelService fs none).1 = some s ∧
      (getModelService fs (some s)).2 = .ok s ∧
      s.esModelData = some es ∧ s.mroModelData = none := by
  unfold getModelService loadModels
  rw [hes, hmro]
  exact ⟨rfl, { esModelData := some es, mroModelData := none }, rfl, rfl, rfl, rfl⟩

/-- C5 witness: the scenario at the concrete fixture filesystem. -/
theorem claim_C5_partial_load_witness :
    (getModelService cFsMroMissing none).2 = .error (.loadFailed "mro_model.pkl") ∧
    ∃ s, (getModelService cFsMroMissing none).1 = some s ∧
      (getModelService cFsMroMissing (some s)).2 = .ok s ∧
      s.esModelData = some cEsMd ∧ s.mroModelData = none :=
  claim_C5_partial_load cFsMroMissing cEsMd rfl rfl

end ReportEms
